import Mathlib

/-!
Verification of the Tree / TreeGroup / TreeItem focus-navigation core of
the roking-reactjs widget collection.

This development shallowly embeds the keyboard/focus navigation logic of
`src/Tree/TreeItem.jsx` (class `TreeItem`) and of the `TreeGroup` component
(class `TreeGroup`, the file with the `TreeGroup` class), together with the
flat `Menu`/`SubMenu` navigation of `src/Menu/index.jsx`, and settles the
frozen claims about them.

Embedding of the rendered DOM:

Each `TreeItem` renders an `li` (role `treeitem`); each `TreeGroup` renders an
`ol` (role `group`) whose element children are exactly the `li`s of its member
`TreeItem`s.  An item's `li` contains its label content plus, when present,
the single `ol` of its child group, so:

* `element.nextSibling` of an item's `li`      = the next item of the
  containing group (`none` after the last item);
* `element.previousSibling`                    = the previous item;
* `element.getElementsByTagName('ol').item(0)` = the `ol` of the item's own
  child group, when it has one (the first `ol` descendant in document order
  is always the direct child group, since label content contains no `ol`);
* `element.parentNode` of an item's `li`       = the `ol` of the containing
  group;
* `parentNode` of a group's `ol`               = the `li` of the owning item,
  or, for the root `ol`, a node outside the tree;
* `aria-expanded` of a group's `ol`            = set iff
  `expandable || expanded`, with value `expanded` (from `TreeGroup.render`).

We represent the rendered tree as an arena: items and groups addressed by
numeric ids, with the parent/child/sibling relations above as lookups.  The
root `ol` (rendered by the `Tree` component) is the unique group with
`owner = none`.  `moveTo(node)` focuses the component owning `node`; calling
it on `null` throws a TypeError (`Object.keys(null)`), which we record as
`NavTarget.err`; a target beyond the modelled tree (the root `ol`'s parent or
its siblings) is `NavTarget.outside`.
-/

/-- An item (a `TreeItem` `li`): its id, the id of the group whose `ol`
contains it (`parent`), and the id of its child group's `ol` when it owns
one (`child`). -/
structure TItem where
  iid : Nat
  parent : Nat
  child : Option Nat
deriving Repr, DecidableEq

/-- A group (a `TreeGroup` or root `Tree` `ol`): its id, the owning item's id
(`none` exactly for the root `ol`), the ordered ids of its member items, and
its current `expanded` state (the component's `this.state.expanded`). -/
structure TGroup where
  gid : Nat
  owner : Option Nat
  items : List Nat
  expanded : Bool
deriving Repr, DecidableEq

/-- The rendered tree: the arena of groups and items. -/
structure TreeState where
  groups : List TGroup
  items : List TItem
deriving Repr, DecidableEq

/-- Lookup of a group by id (first match). -/
def findGroupIn : List TGroup → Nat → Option TGroup
  | [], _ => none
  | gr :: rest, g => if gr.gid = g then some gr else findGroupIn rest g

/-- Lookup of an item by id (first match). -/
def findItemIn : List TItem → Nat → Option TItem
  | [], _ => none
  | it :: rest, i => if it.iid = i then some it else findItemIn rest i

def TreeState.findGroup (s : TreeState) (g : Nat) : Option TGroup :=
  findGroupIn s.groups g

def TreeState.findItem (s : TreeState) (i : Nat) : Option TItem :=
  findItemIn s.items i

/-- The element following the first occurrence of `i` in a sibling list
(DOM `nextSibling` among the `li`s of an `ol`). -/
def listNextAfter : List Nat → Nat → Option Nat
  | [], _ => none
  | a :: rest, i => if a = i then rest.head? else listNextAfter rest i

/-- DOM `previousSibling`: the element preceding `i`, i.e. the successor of
`i` in the reversed sibling list. -/
def listPrevBefore (l : List Nat) (i : Nat) : Option Nat :=
  listNextAfter l.reverse i

/-- DOM `this.element.nextSibling` for the item `i`: the next member of the
containing group. -/
def nextSibling (s : TreeState) (i : Nat) : Option Nat :=
  match s.findItem i with
  | none => none
  | some it =>
    match s.findGroup it.parent with
    | none => none
    | some gr => listNextAfter gr.items i

/-- DOM `this.element.previousSibling` for the item `i`. -/
def prevSibling (s : TreeState) (i : Nat) : Option Nat :=
  match s.findItem i with
  | none => none
  | some it =>
    match s.findGroup it.parent with
    | none => none
    | some gr => listPrevBefore gr.items i

/-- Field `this.expandable` of a `TreeGroup`: set in the constructor to
`items > 1` (count of valid `TreeItem` children); membership is immutable
after construction, so we derive it from the member list. -/
def expandableG (gr : TGroup) : Bool := decide (1 < gr.items.length)

/-- Check `getAttribute('aria-expanded') === 'true'` on the group's `ol`:
`TreeGroup.render` sets the attribute iff `this.expandable || this.expanded`,
with value `this.expanded`. -/
def ariaExpandedTrue (s : TreeState) (g : Nat) : Bool :=
  match s.findGroup g with
  | none => false
  | some gr => (expandableG gr || gr.expanded) && gr.expanded

/-- Where `moveTo` can land: the component owning the target node. -/
inductive NavTarget where
  /-- an item's `li` (focuses the `TreeItem`) -/
  | item (id : Nat) : NavTarget
  /-- a group's `ol` (focuses the `TreeGroup`, or the `Tree` for the root) -/
  | group (id : Nat) : NavTarget
  /-- a node beyond the modelled tree (the root `ol`'s parent or siblings) -/
  | outside : NavTarget
  /-- calling `moveTo(null)`: `Object.keys(null)` throws a TypeError, focus unchanged -/
  | err : NavTarget
deriving Repr, DecidableEq

/-- The final branch of `TreeItem.next` / `TreeItem.stepInto`:
`this.moveTo(this.element.parentNode.parentNode.nextSibling)` — the `li` of
the owning item's next sibling; `outside` for a root-level item; `err`
(TypeError) when the owning item has no next sibling. -/
def climbTarget (s : TreeState) (it : TItem) : NavTarget :=
  match s.findGroup it.parent with
  | none => NavTarget.err
  | some gr =>
    match gr.owner with
    | none => NavTarget.outside
    | some o =>
      match nextSibling s o with
      | some j => NavTarget.item j
      | none => NavTarget.err

/-- Method `TreeItem.next` (ArrowDown on an item).  Source:
`if (el && (!group || isExpanded)) moveTo(el);
 else if (group) moveTo(subtree.item(0));
 else moveTo(this.element.parentNode.parentNode.nextSibling);`
with `el = nextSibling`, `group = first ol descendant has role 'group'`
(i.e. the item has a child group), and
`isExpanded = that ol's aria-expanded === 'true'`.
The four cases of the guard are spelled out as a match. -/
def treeItemNext (s : TreeState) (i : Nat) : NavTarget :=
  match s.findItem i with
  | none => NavTarget.err
  | some it =>
    match nextSibling s i, it.child with
    | some j, none => NavTarget.item j
    | some j, some g =>
      if ariaExpandedTrue s g then NavTarget.item j else NavTarget.group g
    | none, some g => NavTarget.group g
    | none, none => climbTarget s it

/-- Method `TreeItem.previous` (ArrowUp and ArrowLeft on an item).  Source:
`moveTo(this.element.previousSibling || this.element.parentNode)` — the
previous sibling `li`, else the containing group's `ol`. -/
def treeItemPrevious (s : TreeState) (i : Nat) : NavTarget :=
  match s.findItem i with
  | none => NavTarget.err
  | some it =>
    match prevSibling s i with
    | some j => NavTarget.item j
    | none => NavTarget.group it.parent

/-- Method `TreeItem.stepInto` (ArrowRight on an item).  Source:
`if (group) moveTo(subtree.item(0));
 else if (el) moveTo(el);
 else moveTo(this.element.parentNode.parentNode.nextSibling);` -/
def treeItemStepInto (s : TreeState) (i : Nat) : NavTarget :=
  match s.findItem i with
  | none => NavTarget.err
  | some it =>
    match it.child with
    | some g => NavTarget.group g
    | none =>
      match nextSibling s i with
      | some j => NavTarget.item j
      | none => climbTarget s it

/-- Call `setState({ expanded: v })` on the group `g`. -/
def TreeState.setExpanded (s : TreeState) (g : Nat) (v : Bool) : TreeState :=
  { s with groups := s.groups.map fun gr =>
      if gr.gid = g then { gr with expanded := v } else gr }

/-- Method `TreeGroup.collapse`: `if (this.expandable && this.expanded) {
this.element.focus(); this.setState({ expanded: false }); }` — collapses and
focuses the group's own `ol`; otherwise does nothing at all. -/
def groupCollapse (s : TreeState) (g : Nat) : TreeState × Option NavTarget :=
  match s.findGroup g with
  | none => (s, none)
  | some gr =>
    if expandableG gr && gr.expanded then
      (s.setExpanded g false, some (NavTarget.group g))
    else (s, none)

/-- Method `TreeGroup.expand`: `if (this.expandable && !this.expanded)
this.setState({ expanded: true });` — no focus change. -/
def groupExpand (s : TreeState) (g : Nat) : TreeState :=
  match s.findGroup g with
  | none => s
  | some gr =>
    if expandableG gr && !gr.expanded then s.setExpanded g true else s

/-- Method `TreeGroup.toggle`: `if (this.expanded) collapse(); else expand();` -/
def groupToggle (s : TreeState) (g : Nat) : TreeState × Option NavTarget :=
  match s.findGroup g with
  | none => (s, none)
  | some gr =>
    if gr.expanded then groupCollapse s g else (groupExpand s g, none)

/-- Method `TreeGroup.next` (ArrowDown on a group's `ol`):
`moveTo(this.element.parentNode.nextSibling)` — the owning item's next
sibling. -/
def groupNextTarget (s : TreeState) (g : Nat) : NavTarget :=
  match s.findGroup g with
  | none => NavTarget.err
  | some gr =>
    match gr.owner with
    | none => NavTarget.outside
    | some o =>
      match nextSibling s o with
      | some j => NavTarget.item j
      | none => NavTarget.err

/-- Method `TreeGroup.previous` (ArrowUp on a group's `ol`):
`moveTo(this.element.parentNode)` — the owning item's `li`. -/
def groupPreviousTarget (s : TreeState) (g : Nat) : NavTarget :=
  match s.findGroup g with
  | none => NavTarget.err
  | some gr =>
    match gr.owner with
    | none => NavTarget.outside
    | some o => NavTarget.item o

/-- Method `TreeGroup.stepInto`: `moveTo(this.element.firstChild)` — the group's
first member `li` (a TypeError for an empty group). -/
def groupStepIntoTarget (s : TreeState) (g : Nat) : NavTarget :=
  match s.findGroup g with
  | none => NavTarget.err
  | some gr =>
    match gr.items.head? with
    | some j => NavTarget.item j
    | none => NavTarget.err

/-- Keys appearing in the components' shortcut maps. -/
inductive Key where
  | arrowDown | arrowLeft | arrowRight | arrowUp | enter
  | other (s : String)
deriving Repr, DecidableEq

/-- Component `TreeItem`'s shortcut map and `onKeyDown` dispatch:
`{ ArrowDown: next, ArrowLeft: previous, ArrowRight: stepInto,
ArrowUp: previous }`; an unmapped key does nothing.  An item handler never
changes expansion state, hence the returned state is the input state. -/
def treeItemKeyDown (s : TreeState) (i : Nat) (k : Key) :
    TreeState × Option NavTarget :=
  match k with
  | Key.arrowDown => (s, some (treeItemNext s i))
  | Key.arrowLeft => (s, some (treeItemPrevious s i))
  | Key.arrowRight => (s, some (treeItemStepInto s i))
  | Key.arrowUp => (s, some (treeItemPrevious s i))
  | _ => (s, none)

/-- Component `TreeGroup`'s shortcut map and `onKeyDown` dispatch:
`{ ArrowDown: next, ArrowLeft: collapse,
ArrowRight: () => { expand(); stepInto(); }, ArrowUp: previous,
Enter: toggle }`. -/
def treeGroupKeyDown (s : TreeState) (g : Nat) (k : Key) :
    TreeState × Option NavTarget :=
  match k with
  | Key.arrowDown => (s, some (groupNextTarget s g))
  | Key.arrowLeft => groupCollapse s g
  | Key.arrowRight => (groupExpand s g, some (groupStepIntoTarget s g))
  | Key.arrowUp => (s, some (groupPreviousTarget s g))
  | Key.enter => groupToggle s g
  | _ => (s, none)

/-- The `expanded` state of group `g` as reported by the `expanded` getter. -/
def expandedAt (s : TreeState) (g : Nat) : Option Bool :=
  Option.map TGroup.expanded (s.findGroup g)

/-!
The concrete tree of the repository's test suite.

The tree mounted in the Tree test file, with numeric ids:
`tree` = group 0 (root), `ti1` = 1, `ti2` = 2,
`ti1`'s group (`expanded="true"`) = group 1 with items
`tg1-ti1` = 11, `tg1-ti2` = 12, `tg1-ti3` = 13, `tg1-ti4` = 14;
`tg1-ti1`'s group = group 2 with `tg1-ti1-tg1-ti1` = 111 and
`tg1-ti1-tg1-ti2` = 112; 112's group = group 3 with
`tg1-ti1-tg1-ti2-tg1-ti1` = 1121;
`tg1-ti2`'s group (`expanded="false"`, id `tg1-ti2-tg1`) = group 4 with
`tg1-ti2-tg1-ti1` = 121 and `tg1-ti2-tg1-ti2` = 122; 122's group = group 5
with `tg1-ti2-tg1-ti2-tg1-ti1` = 1221.
Initial `expanded` flags follow the constructor seeding
`!(props.expanded === 'false' || items === 0)`. -/
def testTree : TreeState :=
  { groups :=
      [ ⟨0, none, [1, 2], true⟩
      , ⟨1, some 1, [11, 12, 13, 14], true⟩
      , ⟨2, some 11, [111, 112], true⟩
      , ⟨3, some 112, [1121], true⟩
      , ⟨4, some 12, [121, 122], false⟩
      , ⟨5, some 122, [1221], true⟩ ]
  , items :=
      [ ⟨1, 0, some 1⟩
      , ⟨2, 0, none⟩
      , ⟨11, 1, some 2⟩
      , ⟨12, 1, some 4⟩
      , ⟨13, 1, none⟩
      , ⟨14, 1, none⟩
      , ⟨111, 2, none⟩
      , ⟨112, 2, some 3⟩
      , ⟨1121, 3, none⟩
      , ⟨121, 4, none⟩
      , ⟨122, 4, some 5⟩
      , ⟨1221, 5, none⟩ ] }

/-!
Behaviour on the test tree matches the repository's own tests:
ArrowDown on `tg1-ti3` focuses `tg1-ti4`; ArrowDown on `ti1` (expanded child
group) focuses `ti2`; ArrowDown on `tg1-ti2` (collapsed child group) focuses
the group `tg1-ti2-tg1`; ArrowDown on `tg1-ti4` focuses the twice-removed
sibling `ti2`; ArrowLeft on `tg1-ti4` focuses `tg1-ti3`; ArrowRight on
`tg1-ti2` focuses the group `tg1-ti2-tg1`; ArrowUp on `ti1` focuses the
root. -/
example : treeItemNext testTree 13 = NavTarget.item 14 := by decide
example : treeItemNext testTree 1 = NavTarget.item 2 := by decide
example : treeItemNext testTree 12 = NavTarget.group 4 := by decide
example : treeItemNext testTree 14 = NavTarget.item 2 := by decide
example : treeItemPrevious testTree 14 = NavTarget.item 13 := by decide
example : treeItemStepInto testTree 12 = NavTarget.group 4 := by decide
example : treeItemStepInto testTree 13 = NavTarget.item 14 := by decide
example : treeItemPrevious testTree 1 = NavTarget.group 0 := by decide
example : treeItemPrevious testTree 2 = NavTarget.item 1 := by decide

/-!
Construction: the `TreeGroup` constructor and render.

A construction input is a nested descriptor: a `TreeItem` node (with its
content, which may include its child `TreeGroup` descriptor), a `TreeGroup`
node (with its optional `expanded` hint string and children), or any other
node (raw markup such as `li`, `ol`, or a `span` label). -/
inductive Desc where
  | item (id : Nat) (content : List Desc) : Desc
  | group (id : Nat) (hint : Option String) (children : List Desc) : Desc
  | raw (tag : String) : Desc

/-- The constructor's child validity check:
`typeof type !== 'function' || type.name !== 'TreeItem'` — only a `TreeItem`
component child is valid. -/
def isItemDesc : Desc → Bool
  | Desc.item _ _ => true
  | _ => false

/-- How a child stringifies inside the error message
`Invalid child type (CHILD) at N` (a raw node stringifies to its tag; a
component to its name). -/
def descTag : Desc → String
  | Desc.item _ _ => "TreeItem"
  | Desc.group _ _ _ => "TreeGroup"
  | Desc.raw t => t

/-- The error list collected by the `React.Children.forEach` loop of the
`TreeGroup` constructor, starting from child index `idx`. -/
def childErrorsAux : Nat → List Desc → List String
  | _, [] => []
  | idx, c :: rest =>
    (if isItemDesc c then []
     else ["Invalid child type (" ++ descTag c ++ ") at " ++ toString (idx + 1)])
      ++ childErrorsAux (idx + 1) rest

def childErrors (children : List Desc) : List String :=
  childErrorsAux 0 children

/-- The `items` counter of the constructor: the number of valid `TreeItem`
children. -/
def countItems (children : List Desc) : Nat :=
  (children.filter isItemDesc).length

/-- The fields a `TreeGroup` constructor computes. -/
structure MkGroup where
  errs : List String
  expandable : Bool
  expanded : Bool
deriving Repr, DecidableEq

/-- The `TreeGroup` constructor:
`this.expandable = items > 1;`
`const expanded = !(props.expanded === 'false' || items === 0);` -/
def mkTreeGroup (hint : Option String) (children : List Desc) : MkGroup :=
  { errs := childErrors children
  , expandable := decide (1 < countItems children)
  , expanded := !(hint == some "false" || countItems children == 0) }

/-- What a construction call renders. -/
inductive Rendered where
  /-- field `this.error` is set: `<h1>Unable to render tree</h1>` plus the error
  list; none of the children are rendered -/
  | errorState (msgs : List String) : Rendered
  /-- a group's `ol` with its rendered children -/
  | groupNode (id : Nat) (expandable expanded : Bool)
      (children : List Rendered) : Rendered
  /-- an item's `li` with its rendered content -/
  | itemNode (id : Nat) (children : List Rendered) : Rendered
  /-- raw markup, rendered as-is (a `TreeItem` does not validate its
  content) -/
  | rawNode (tag : String) : Rendered

/-- Whether a rendered node is the visible error state. -/
def Rendered.isError : Rendered → Bool
  | Rendered.errorState _ => true
  | _ => false

mutual
/-- Rendering a descriptor: a `TreeGroup` renders the error state when its
constructor collected errors (and then renders none of its children),
otherwise its `ol`; a `TreeItem` renders its `li` with all its content
unvalidated; raw markup renders as-is. -/
def renderDesc : Desc → Rendered
  | Desc.raw t => Rendered.rawNode t
  | Desc.item id content => Rendered.itemNode id (renderDescList content)
  | Desc.group id hint children =>
    let mk := mkTreeGroup hint children
    if mk.errs = [] then
      Rendered.groupNode id mk.expandable mk.expanded (renderDescList children)
    else
      Rendered.errorState mk.errs
def renderDescList : List Desc → List Rendered
  | [] => []
  | d :: ds => renderDesc d :: renderDescList ds
end

/-!
The flat Menu / SubMenu variant (`src/Menu/index.jsx`).

`Menu.select` (identical in `SubMenu`):
`const lastIndex = this.items.length - 1;
 const i = ndx < 0 ? lastIndex : ndx > lastIndex ? 0 : ndx;`
then focuses item `i`.  With an empty menu the source would throw
(`this.items[i]` is `undefined`); we model that as `none`.  `next`/`prev`
read `activeIndex` (the index of the item containing the active element,
`undefined` when none) and call `select(i + 1)` / `select(i - 1)`. -/
def menuSelect (len : Nat) (ndx : Int) : Option Nat :=
  if len = 0 then none
  else
    let lastIndex : Int := (len : Int) - 1
    let i : Int := if ndx < 0 then lastIndex else if ndx > lastIndex then 0 else ndx
    some i.toNat

def menuNext (len : Nat) (active : Option Nat) : Option Nat :=
  match active with
  | some i => menuSelect len ((i : Int) + 1)
  | none => none

def menuPrev (len : Nat) (active : Option Nat) : Option Nat :=
  match active with
  | some i => menuSelect len ((i : Int) - 1)
  | none => none

example : menuNext 3 (some 2) = some 0 := by decide
example : menuPrev 3 (some 0) = some 2 := by decide
example : menuNext 1 (some 0) = some 0 := by decide
example : menuNext 3 (some 1) = some 2 := by decide
example : mkTreeGroup none [] = ⟨[], false, false⟩ := by decide
example :
    mkTreeGroup (some "false") [Desc.item 7 []] = ⟨[], false, false⟩ := by
  decide
example : mkTreeGroup none [Desc.item 7 []] = ⟨[], false, true⟩ := by decide

/-!
Helper lemmas.
-/

theorem findGroupIn_set (l : List TGroup) (g : Nat) (v : Bool) :
    findGroupIn
        (l.map fun gr => if gr.gid = g then { gr with expanded := v } else gr) g
      = Option.map (fun gr => { gr with expanded := v }) (findGroupIn l g) := by
  induction l with
  | nil => rfl
  | cons gr rest ih =>
    by_cases hg : gr.gid = g
    · simp [findGroupIn, hg]
    · simp [findGroupIn, hg, ih]

theorem findGroup_setExpanded (s : TreeState) (g : Nat) (v : Bool) :
    (s.setExpanded g v).findGroup g
      = Option.map (fun gr => { gr with expanded := v }) (s.findGroup g) := by
  simp [TreeState.setExpanded, TreeState.findGroup, findGroupIn_set]

theorem climbTarget_ne_group (s : TreeState) (it : TItem) (g : Nat) :
    climbTarget s it ≠ NavTarget.group g := by
  unfold climbTarget
  cases s.findGroup it.parent with
  | none => simp
  | some gr =>
    cases ho : gr.owner with
    | none => simp [ho]
    | some o => cases hn : nextSibling s o <;> simp [ho, hn]

/-- Helper: on a group that is not expandable, `toggle`, `expand` and
`collapse` change neither the state nor the focus. -/
theorem nonExpandable_ops_noop (s : TreeState) (g : Nat) (gr : TGroup)
    (h : s.findGroup g = some gr) (hx : expandableG gr = false) :
    (groupToggle s g).1 = s ∧ (groupToggle s g).2 = none
    ∧ groupExpand s g = s ∧ (groupCollapse s g).1 = s := by
  have hc : (groupCollapse s g) = (s, none) := by
    simp [groupCollapse, h, hx]
  have he : groupExpand s g = s := by
    simp [groupExpand, h, hx]
  cases hge : gr.expanded with
  | true => simp [groupToggle, h, hge, hc, he]
  | false => simp [groupToggle, h, hge, hc, he]

/-!
The claims.
-/

/-- C7: `isExpandable(G)` holds exactly when `G` has at least two items
(in the constructor, `this.expandable = items > 1` with `items` the count of
valid `TreeItem` children; for a built group, `expandable` is that count);
and for every non-expandable `G`, `toggle` (and `expand`/`collapse`) leaves
the state — in particular the reported `expanded` — unchanged and moves no
focus. -/
theorem expandable_iff_two_items :
    (∀ hint children, (mkTreeGroup hint children).expandable
        = decide (2 ≤ countItems children))
    ∧ (∀ gr : TGroup, expandableG gr = decide (2 ≤ gr.items.length))
    ∧ (∀ s g gr, s.findGroup g = some gr → expandableG gr = false →
        (groupToggle s g).1 = s ∧ (groupToggle s g).2 = none
        ∧ groupExpand s g = s ∧ (groupCollapse s g).1 = s) := by
  refine ⟨?_, ?_, ?_⟩
  · intro hint children
    simp only [mkTreeGroup]
    rw [decide_eq_decide]
    omega
  · intro gr
    simp only [expandableG]
    rw [decide_eq_decide]
    omega
  · intro s g gr h hx
    exact nonExpandable_ops_noop s g gr h hx

/-- C7 witness: the one-item group `tg1-ti1-tg1-ti2-tg1` (group 3) of the
test tree is not expandable, and toggling it changes nothing. -/
theorem expandable_iff_two_items_witness :
    (groupToggle testTree 3).1 = testTree
    ∧ (mkTreeGroup none [Desc.item 7 []]).expandable
        = decide (2 ≤ countItems [Desc.item 7 []]) :=
  ⟨(expandable_iff_two_items.2.2 testTree 3 ⟨3, some 112, [1121], true⟩
      (by decide) (by decide)).1,
   expandable_iff_two_items.1 none [Desc.item 7 []]⟩

/-- C8: for every expandable group in any expansion state, toggling twice
restores the reported `expanded` value. -/
theorem toggle_toggle_restores (s : TreeState) (g : Nat) (gr : TGroup)
    (h : s.findGroup g = some gr) (hx : expandableG gr = true) :
    expandedAt ((groupToggle ((groupToggle s g).1) g).1) g = expandedAt s g := by
  cases he : gr.expanded with
  | true =>
    have h1 : (groupToggle s g).1 = s.setExpanded g false := by
      simp [groupToggle, groupCollapse, h, he, hx]
    have h2 : (s.setExpanded g false).findGroup g
        = some { gr with expanded := false } := by
      rw [findGroup_setExpanded, h]; rfl
    have h3 : (groupToggle (s.setExpanded g false) g).1
        = (s.setExpanded g false).setExpanded g true := by
      simp only [expandableG] at hx
      simp [groupToggle, groupExpand, h2, expandableG, hx]
    rw [h1, h3]
    rw [expandedAt, findGroup_setExpanded, h2]
    simp [expandedAt, h, he]
  | false =>
    have h1 : (groupToggle s g).1 = s.setExpanded g true := by
      simp [groupToggle, groupExpand, h, he, hx]
    have h2 : (s.setExpanded g true).findGroup g
        = some { gr with expanded := true } := by
      rw [findGroup_setExpanded, h]; rfl
    have h3 : (groupToggle (s.setExpanded g true) g).1
        = (s.setExpanded g true).setExpanded g false := by
      simp only [expandableG] at hx
      simp [groupToggle, groupCollapse, h2, expandableG, hx]
    rw [h1, h3]
    rw [expandedAt, findGroup_setExpanded, h2]
    simp [expandedAt, h, he]

/-- C8 witness: toggling the expanded four-item group `tg1` (group 1) of the
test tree twice restores its reported `expanded`. -/
theorem toggle_toggle_restores_witness :
    expandedAt ((groupToggle ((groupToggle testTree 1).1) 1).1) 1
      = expandedAt testTree 1 :=
  toggle_toggle_restores testTree 1 ⟨1, some 1, [11, 12, 13, 14], true⟩
    (by decide) (by decide)

/-- C6 counterexample: `isExpanded` does not report `true` unconditionally
for non-expandable groups.  The constructor seeds
`expanded = !(props.expanded === 'false' || items === 0)` and the `expanded`
getter returns the stored state, so a group with zero items reports `false`
(the test suite asserts an empty group is "not expanded"), and a one-item
group whose caller passed the hint `"false"` also reports `false`. -/
theorem nonExpandable_reports_false_counterexample :
    countItems [] = 0
    ∧ (mkTreeGroup none []).expanded = false
    ∧ countItems [Desc.item 7 []] = 1
    ∧ (mkTreeGroup (some "false") [Desc.item 7 []]).expanded = false := by
  decide

/-- C6 (amended): a group with zero or one items is never expandable, and its
reported `expanded` value is fixed at construction — `true` exactly when the
group has one item and the caller-supplied hint is not the string `"false"`
(so `false` for every empty group and for a one-item group hinted
`"false"`); `expand`, `collapse` and `toggle` never change it. -/
theorem nonExpandable_expanded_fixed (hint : Option String)
    (children : List Desc) (h : countItems children ≤ 1) :
    (mkTreeGroup hint children).expandable = false
    ∧ (mkTreeGroup hint children).expanded
      = (decide (countItems children = 1) && !(hint == some "false"))
    ∧ (∀ s g gr, s.findGroup g = some gr → expandableG gr = false →
        (groupToggle s g).1 = s ∧ groupExpand s g = s
        ∧ (groupCollapse s g).1 = s) := by
  refine ⟨?_, ?_, ?_⟩
  · simp only [mkTreeGroup]
    rw [decide_eq_false_iff_not]
    omega
  · rcases Nat.le_one_iff_eq_zero_or_eq_one.mp h with h0 | h1
    · simp [mkTreeGroup, h0]
    · simp [mkTreeGroup, h1]
  · intro s g gr hg hx
    exact ⟨(nonExpandable_ops_noop s g gr hg hx).1,
      (nonExpandable_ops_noop s g gr hg hx).2.2.1,
      (nonExpandable_ops_noop s g gr hg hx).2.2.2⟩

/-- C6 witness: a one-item group with no hint reports `expanded = true`,
with the hint `"false"` reports `false`, and toggling the one-item group 5
of the test tree changes nothing. -/
theorem nonExpandable_expanded_fixed_witness :
    ((mkTreeGroup none [Desc.item 7 []]).expanded
        = (decide (countItems [Desc.item 7 []] = 1) && !(none == some "false")))
    ∧ (groupToggle testTree 5).1 = testTree :=
  ⟨(nonExpandable_expanded_fixed none [Desc.item 7 []] (by decide)).2.1,
   ((nonExpandable_expanded_fixed none [Desc.item 7 []] (by decide)).2.2
      testTree 5 ⟨5, some 122, [1221], true⟩ (by decide) (by decide)).1⟩

/-- C1 counterexample: in the test tree, `ti1` (item 1) has the existing,
expanded child group 1 whose first item is `tg1-ti1` (item 11), yet
ArrowDown moves focus to the next sibling `ti2` (item 2), not to item 11
(the repository's test asserts exactly this).  And `tg1-ti2` (item 12) has
the next sibling `tg1-ti3` (item 13) and a collapsed child group, yet
ArrowDown moves focus to the group node `tg1-ti2-tg1` (group 4), not to
item 13 (also asserted by the test suite). -/
theorem stepDown_counterexample :
    testTree.findItem 1 = some ⟨1, 0, some 1⟩
    ∧ ariaExpandedTrue testTree 1 = true
    ∧ Option.map (fun gr => gr.items.head?) (testTree.findGroup 1)
        = some (some 11)
    ∧ treeItemNext testTree 1 = NavTarget.item 2
    ∧ NavTarget.item 2 ≠ NavTarget.item 11
    ∧ testTree.findItem 12 = some ⟨12, 1, some 4⟩
    ∧ nextSibling testTree 12 = some 13
    ∧ ariaExpandedTrue testTree 4 = false
    ∧ treeItemNext testTree 12 = NavTarget.group 4
    ∧ NavTarget.group 4 ≠ NavTarget.item 13 := by decide

/-- C1 (amended): Step-Down (ArrowDown on an item) prefers the next sibling:
if the item has a next sibling and either no child group or an expanded
child group, focus moves to the next sibling — never into the child group.
If the item has a child group and either no next sibling or a collapsed
child group, focus moves to the child group's own node (not to its first
item). -/
theorem stepDown_sibling_first (s : TreeState) (i : Nat) (it : TItem)
    (h : s.findItem i = some it) :
    (∀ j, nextSibling s i = some j → it.child = none →
        treeItemNext s i = NavTarget.item j)
    ∧ (∀ j g, nextSibling s i = some j → it.child = some g →
        ariaExpandedTrue s g = true → treeItemNext s i = NavTarget.item j)
    ∧ (∀ g, it.child = some g →
        (nextSibling s i = none ∨ ariaExpandedTrue s g = false) →
        treeItemNext s i = NavTarget.group g) := by
  refine ⟨?_, ?_, ?_⟩
  · intro j hj hc
    simp [treeItemNext, h, hj, hc]
  · intro j g hj hg hx
    simp [treeItemNext, h, hj, hg, hx]
  · intro g hg hor
    rcases hor with hn | hx
    · simp [treeItemNext, h, hg, hn]
    · cases hn : nextSibling s i with
      | none => simp [treeItemNext, h, hg, hn]
      | some j => simp [treeItemNext, h, hg, hn, hx]

/-- C1 witness: ArrowDown on `tg1-ti3` (item 13, no child group) moves to
its next sibling `tg1-ti4` (item 14). -/
theorem stepDown_sibling_first_witness :
    treeItemNext testTree 13 = NavTarget.item 14 :=
  (stepDown_sibling_first testTree 13 ⟨13, 1, none⟩ (by decide)).1 14
    (by decide) (by decide)

/-- C2 counterexample: `tg1-ti1-tg1-ti2-tg1-ti1` (item 1121) is the last
(only) item of its group, with no child group.  Its parent item 112 has no
next sibling, but its grandparent `tg1-ti1` (item 11) has the next sibling
`tg1-ti2` (item 12) — by the claim, focus should move to item 12.  The code
climbs exactly one level and calls `moveTo` on the parent item's missing
next sibling, i.e. `moveTo(null)`, which throws a TypeError
(`Object.keys(null)`): focus moves nowhere, and in particular not to the
nearest ancestor's next sibling. -/
theorem stepDown_climb_counterexample :
    testTree.findItem 1121 = some ⟨1121, 3, none⟩
    ∧ nextSibling testTree 1121 = none
    ∧ nextSibling testTree 112 = none
    ∧ nextSibling testTree 11 = some 12
    ∧ treeItemNext testTree 1121 = NavTarget.err
    ∧ NavTarget.err ≠ NavTarget.item 12 := by decide

/-- C2 (amended): Step-Down on a last sibling with no child group climbs
exactly one ancestor level: focus moves to the parent item's next sibling
when it exists ("twice-removed sibling"); when the parent item has no next
sibling the code throws a TypeError (`moveTo(null)`) without climbing
further, and for a root-level item the target lies outside the tree. -/
theorem stepDown_climbs_one_level (s : TreeState) (i : Nat) (it : TItem)
    (h : s.findItem i = some it) (hc : it.child = none)
    (hn : nextSibling s i = none) :
    treeItemNext s i = climbTarget s it
    ∧ (∀ gr o j, s.findGroup it.parent = some gr → gr.owner = some o →
        nextSibling s o = some j → treeItemNext s i = NavTarget.item j)
    ∧ (∀ gr o, s.findGroup it.parent = some gr → gr.owner = some o →
        nextSibling s o = none → treeItemNext s i = NavTarget.err)
    ∧ (∀ gr, s.findGroup it.parent = some gr → gr.owner = none →
        treeItemNext s i = NavTarget.outside) := by
  have hbase : treeItemNext s i = climbTarget s it := by
    simp [treeItemNext, h, hc, hn]
  refine ⟨hbase, ?_, ?_, ?_⟩
  · intro gr o j hgr ho hj
    rw [hbase]
    simp [climbTarget, hgr, ho, hj]
  · intro gr o hgr ho hj
    rw [hbase]
    simp [climbTarget, hgr, ho, hj]
  · intro gr hgr ho
    rw [hbase]
    simp [climbTarget, hgr, ho]

/-- C2 witness: ArrowDown on the last item `tg1-ti4` (item 14) of group 1
moves to the owning item `ti1`'s next sibling `ti2` (item 2), the behaviour
the test suite calls the "twice removed sibling". -/
theorem stepDown_climbs_one_level_witness :
    treeItemNext testTree 14 = NavTarget.item 2 :=
  (stepDown_climbs_one_level testTree 14 ⟨14, 1, none⟩ (by decide) (by decide)
      (by decide)).2.1 ⟨1, some 1, [11, 12, 13, 14], true⟩ 1 2 (by decide)
    (by decide) (by decide)

/-- C3 counterexample: ArrowRight on `tg1-ti2` (item 12), whose child group
4 is collapsed with first item `tg1-ti2-tg1-ti1` (item 121): the claim says
the group is expanded and focus moves to item 121; the code moves focus to
the group node itself and changes no expansion state — afterwards group 4 is
still collapsed (the repository's test asserts focus lands on the group
`tg1-ti2-tg1`). -/
theorem stepInto_counterexample :
    testTree.findItem 12 = some ⟨12, 1, some 4⟩
    ∧ expandedAt testTree 4 = some false
    ∧ Option.map (fun gr => gr.items.head?) (testTree.findGroup 4)
        = some (some 121)
    ∧ treeItemKeyDown testTree 12 Key.arrowRight
        = (testTree, some (NavTarget.group 4))
    ∧ expandedAt (treeItemKeyDown testTree 12 Key.arrowRight).1 4 = some false
    ∧ NavTarget.group 4 ≠ NavTarget.item 121 := by decide

/-- C3 (amended): ArrowRight on an item with a child group moves focus to the
child group's own node and changes no expansion state; on an item without a
child group it moves to the next sibling when one exists and otherwise falls
back to the one-level climb.  The expand-and-enter behaviour lives one
keystroke later, on the group node: ArrowRight there runs
`expand(); stepInto();` — it sets `expanded` when the group is expandable and
collapsed, and moves focus to the group's first item. -/
theorem stepInto_targets_group_node (s : TreeState) (i : Nat) (it : TItem)
    (h : s.findItem i = some it) :
    (∀ g, it.child = some g →
        treeItemKeyDown s i Key.arrowRight = (s, some (NavTarget.group g)))
    ∧ (it.child = none → ∀ j, nextSibling s i = some j →
        treeItemKeyDown s i Key.arrowRight = (s, some (NavTarget.item j)))
    ∧ (it.child = none → nextSibling s i = none →
        treeItemKeyDown s i Key.arrowRight = (s, some (climbTarget s it)))
    ∧ (∀ g gr j, s.findGroup g = some gr → gr.items.head? = some j →
        (treeGroupKeyDown s g Key.arrowRight).2 = some (NavTarget.item j))
    ∧ (∀ g gr, s.findGroup g = some gr → expandableG gr = true →
        gr.expanded = false →
        (treeGroupKeyDown s g Key.arrowRight).1 = s.setExpanded g true) := by
  refine ⟨?_, ?_, ?_, ?_, ?_⟩
  · intro g hg
    simp [treeItemKeyDown, treeItemStepInto, h, hg]
  · intro hc j hj
    simp [treeItemKeyDown, treeItemStepInto, h, hc, hj]
  · intro hc hn
    simp [treeItemKeyDown, treeItemStepInto, h, hc, hn]
  · intro g gr j hg hj
    simp [treeGroupKeyDown, groupStepIntoTarget, hg, hj]
  · intro g gr hg hx he
    simp [treeGroupKeyDown, groupExpand, hg, hx, he]

/-- C3 witness: ArrowRight on `tg1-ti2` (item 12) focuses the group node 4;
ArrowRight on group 4 itself expands it and focuses its first item 121. -/
theorem stepInto_targets_group_node_witness :
    treeItemKeyDown testTree 12 Key.arrowRight
        = (testTree, some (NavTarget.group 4))
    ∧ (treeGroupKeyDown testTree 4 Key.arrowRight).2
        = some (NavTarget.item 121)
    ∧ (treeGroupKeyDown testTree 4 Key.arrowRight).1
        = testTree.setExpanded 4 true :=
  ⟨(stepInto_targets_group_node testTree 12 ⟨12, 1, some 4⟩ (by decide)).1 4
      (by decide),
   (stepInto_targets_group_node testTree 12 ⟨12, 1, some 4⟩ (by decide)).2.2.2.1
      4 ⟨4, some 12, [121, 122], false⟩ 121 (by decide) (by decide),
   (stepInto_targets_group_node testTree 12 ⟨12, 1, some 4⟩ (by decide)).2.2.2.2
      4 ⟨4, some 12, [121, 122], false⟩ (by decide) (by decide) (by decide)⟩

/-- C4 counterexample: `ti1` (item 1) owns the expandable, expanded child
group 1.  By the claim, ArrowLeft should collapse group 1 and keep focus on
item 1.  The code's `TreeItem` shortcut map sends ArrowLeft to `previous`:
the state is unchanged (group 1 stays expanded) and focus moves to the
containing node (the tree root, group 0), not to item 1. -/
theorem collapseLeft_counterexample :
    testTree.findItem 1 = some ⟨1, 0, some 1⟩
    ∧ Option.map expandableG (testTree.findGroup 1) = some true
    ∧ expandedAt testTree 1 = some true
    ∧ treeItemKeyDown testTree 1 Key.arrowLeft
        = (testTree, some (NavTarget.group 0))
    ∧ expandedAt (treeItemKeyDown testTree 1 Key.arrowLeft).1 1 = some true
    ∧ NavTarget.group 0 ≠ NavTarget.item 1 := by decide

/-- C4 (amended): ArrowLeft on an item is `previous`, never a collapse: the
state is unchanged and focus moves to the previous sibling when one exists,
else to the containing group's node.  Collapse-on-ArrowLeft lives on the
group node: ArrowLeft there collapses an expandable, expanded group and
focuses that group; on a collapsed or non-expandable group it does nothing
at all. -/
theorem arrowLeft_item_is_previous (s : TreeState) (i : Nat) :
    (treeItemKeyDown s i Key.arrowLeft).1 = s
    ∧ (treeItemKeyDown s i Key.arrowLeft).2 = some (treeItemPrevious s i)
    ∧ (∀ it j, s.findItem i = some it → prevSibling s i = some j →
        treeItemPrevious s i = NavTarget.item j)
    ∧ (∀ it, s.findItem i = some it → prevSibling s i = none →
        treeItemPrevious s i = NavTarget.group it.parent)
    ∧ (∀ g gr, s.findGroup g = some gr → expandableG gr = true →
        gr.expanded = true →
        treeGroupKeyDown s g Key.arrowLeft
          = (s.setExpanded g false, some (NavTarget.group g)))
    ∧ (∀ g gr, s.findGroup g = some gr →
        (expandableG gr = false ∨ gr.expanded = false) →
        treeGroupKeyDown s g Key.arrowLeft = (s, none)) := by
  refine ⟨rfl, rfl, ?_, ?_, ?_, ?_⟩
  · intro it j hit hj
    simp [treeItemPrevious, hit, hj]
  · intro it hit hj
    simp [treeItemPrevious, hit, hj]
  · intro g gr hg hx he
    simp [treeGroupKeyDown, groupCollapse, hg, hx, he]
  · intro g gr hg hor
    rcases hor with hx | he
    · simp [treeGroupKeyDown, groupCollapse, hg, hx]
    · simp [treeGroupKeyDown, groupCollapse, hg, he]

/-- C4 witness: ArrowLeft on `tg1-ti4` (item 14) moves to the previous
sibling `tg1-ti3` (item 13) without touching state; ArrowLeft on the
expanded group 1 collapses it and focuses the group node. -/
theorem arrowLeft_item_is_previous_witness :
    treeItemPrevious testTree 14 = NavTarget.item 13
    ∧ treeGroupKeyDown testTree 1 Key.arrowLeft
        = (testTree.setExpanded 1 false, some (NavTarget.group 1)) :=
  ⟨(arrowLeft_item_is_previous testTree 14).2.2.1 ⟨14, 1, none⟩ 13 (by decide)
      (by decide),
   (arrowLeft_item_is_previous testTree 14).2.2.2.2.1 1
      ⟨1, some 1, [11, 12, 13, 14], true⟩ (by decide) (by decide) (by decide)⟩

/-- Whether a navigation target is an item. -/
def NavTarget.isItem : NavTarget → Bool
  | NavTarget.item _ => true
  | _ => false

/-- C5 counterexample: ArrowDown on `tg1-ti2` (item 12) puts focus on the
group node `tg1-ti2-tg1` (group 4) — a non-root group (its owner is item
12), not an item and not the tree root; the repository's test asserts this
focus target. -/
theorem focus_on_group_counterexample :
    treeItemNext testTree 12 = NavTarget.group 4
    ∧ Option.map TGroup.owner (testTree.findGroup 4) = some (some 12)
    ∧ (treeItemNext testTree 12).isItem = false := by decide

/-- C5 (amended): focus can land on a group node, and does so exactly in
these cases — ArrowDown: the item has a child group and either no next
sibling or that group's `aria-expanded` is not `'true'`; ArrowRight: the
item has a child group; ArrowUp/ArrowLeft: the item has no previous sibling
(the target then being the containing group's node, the tree root only for
root-level items). -/
theorem focus_group_characterisation (s : TreeState) (i : Nat) (it : TItem)
    (g : Nat) (h : s.findItem i = some it) :
    (treeItemNext s i = NavTarget.group g ↔
      it.child = some g
        ∧ (nextSibling s i = none ∨ ariaExpandedTrue s g = false))
    ∧ (treeItemStepInto s i = NavTarget.group g ↔ it.child = some g)
    ∧ (treeItemPrevious s i = NavTarget.group g ↔
      prevSibling s i = none ∧ it.parent = g) := by
  refine ⟨?_, ?_, ?_⟩
  · cases hc : it.child with
    | none =>
      cases hn : nextSibling s i with
      | none =>
        simp only [treeItemNext, h, hc, hn]
        simp [climbTarget_ne_group]
      | some j => simp [treeItemNext, h, hc, hn]
    | some gc =>
      cases hn : nextSibling s i with
      | none => simp [treeItemNext, h, hc, hn]
      | some j =>
        cases hx : ariaExpandedTrue s gc with
        | true =>
          have hred : treeItemNext s i = NavTarget.item j := by
            simp [treeItemNext, h, hc, hn, hx]
          rw [hred]
          constructor
          · intro hcon
            exact NavTarget.noConfusion hcon
          · rintro ⟨hg, hor⟩
            injection hg with hg
            subst hg
            rcases hor with hor | hor
            · exact Option.noConfusion hor
            · rw [hx] at hor
              exact Bool.noConfusion hor
        | false =>
          have hred : treeItemNext s i = NavTarget.group gc := by
            simp [treeItemNext, h, hc, hn, hx]
          rw [hred]
          constructor
          · intro hcon
            injection hcon with hcon
            subst hcon
            exact ⟨rfl, Or.inr hx⟩
          · rintro ⟨hg, _⟩
            injection hg with hg
            rw [hg]
  · cases hc : it.child with
    | none =>
      cases hn : nextSibling s i with
      | none =>
        simp only [treeItemStepInto, h, hc, hn]
        simp [climbTarget_ne_group]
      | some j => simp [treeItemStepInto, h, hc, hn]
    | some gc => simp [treeItemStepInto, h, hc]
  · cases hp : prevSibling s i with
    | none => simp [treeItemPrevious, h, hp]
    | some j => simp [treeItemPrevious, h, hp]

/-- C5 witness: ArrowDown from `tg1-ti2` (item 12) lands on group 4 because
item 12's child group 4 is not expanded. -/
theorem focus_group_characterisation_witness :
    treeItemNext testTree 12 = NavTarget.group 4 :=
  (focus_group_characterisation testTree 12 ⟨12, 1, some 4⟩ 4
      (by decide)).1.mpr ⟨by decide, Or.inr (by decide)⟩

/-- C9: in the flat Menu/SubMenu variant, `select` clamps by wrapping
(`ndx < 0 ? lastIndex : ndx > lastIndex ? 0 : ndx`), so Step-Down at the
last item wraps to the first and Step-Up at the first wraps to the last,
for every non-empty menu.  The Tree applies no wrap-around: ArrowDown from
the last root-level item leaves the tree (it targets the root `ol`'s
parent's sibling, never any item), and ArrowUp from a first sibling targets
the containing group node, never the last item. -/
theorem menu_wraps_tree_does_not :
    (∀ len : Nat, 1 ≤ len →
      menuNext len (some (len - 1)) = some 0
      ∧ menuPrev len (some 0) = some (len - 1))
    ∧ (∀ s i it gr, s.findItem i = some it →
        s.findGroup it.parent = some gr → gr.owner = none →
        nextSibling s i = none → it.child = none →
        treeItemNext s i = NavTarget.outside
        ∧ ∀ j, treeItemNext s i ≠ NavTarget.item j)
    ∧ (∀ s i it, s.findItem i = some it → prevSibling s i = none →
        treeItemPrevious s i = NavTarget.group it.parent
        ∧ ∀ j, treeItemPrevious s i ≠ NavTarget.item j) := by
  refine ⟨?_, ?_, ?_⟩
  · intro len hlen
    obtain ⟨m, rfl⟩ : ∃ m, len = m + 1 := ⟨len - 1, by omega⟩
    have hnz : ¬(m + 1 = 0) := by omega
    have hlt : ¬((((m + 1 - 1 : Nat) : Int) + 1) < 0) := by omega
    have hgt : (((m + 1 - 1 : Nat) : Int) + 1) > ((m + 1 : Nat) : Int) - 1 := by
      push_cast
      omega
    have hlt2 : (-1 : Int) < 0 := by omega
    constructor
    · simp only [menuNext, menuSelect, if_neg hnz, if_neg hlt, if_pos hgt]
      rfl
    · simp only [menuPrev, menuSelect, Nat.cast_zero, zero_sub, if_neg hnz,
        if_pos hlt2]
      congr 1
      push_cast
      omega
  · intro s i it gr h hgr ho hn hc
    have hred : treeItemNext s i = NavTarget.outside := by
      simp [treeItemNext, climbTarget, h, hgr, ho, hn, hc]
    exact ⟨hred, fun j => by rw [hred]; exact fun hcon => NavTarget.noConfusion hcon⟩
  · intro s i it h hp
    have hred : treeItemPrevious s i = NavTarget.group it.parent := by
      simp [treeItemPrevious, h, hp]
    exact ⟨hred, fun j => by rw [hred]; exact fun hcon => NavTarget.noConfusion hcon⟩

/-- C9 witness: a three-item menu wraps on both boundaries; in the test
tree, ArrowDown from the last root item `ti2` leaves the tree, and ArrowUp
from the first root item `ti1` targets the root group's node. -/
theorem menu_wraps_tree_does_not_witness :
    (menuNext 3 (some 2) = some 0 ∧ menuPrev 3 (some 0) = some 2)
    ∧ treeItemNext testTree 2 = NavTarget.outside
    ∧ treeItemPrevious testTree 1 = NavTarget.group 0 :=
  ⟨menu_wraps_tree_does_not.1 3 (by decide),
   (menu_wraps_tree_does_not.2.1 testTree 2 ⟨2, 0, none⟩ ⟨0, none, [1, 2], true⟩
      (by decide) (by decide) (by decide) (by decide) (by decide)).1,
   (menu_wraps_tree_does_not.2.2 testTree 1 ⟨1, 0, some 1⟩ (by decide)
      (by decide)).1⟩

/-- Helper: a group with an invalid direct child collects at least one
error. -/
theorem childErrorsAux_ne_nil (idx : Nat) (l : List Desc) (c : Desc)
    (hc : c ∈ l) (hv : isItemDesc c = false) :
    childErrorsAux idx l ≠ [] := by
  induction l generalizing idx with
  | nil => cases hc
  | cons d ds ih =>
    cases hc with
    | head => simp [childErrorsAux, hv]
    | tail _ hm =>
      cases hd : isItemDesc d with
      | true => simpa [childErrorsAux, hd] using ih (idx + 1) hm
      | false => simp [childErrorsAux, hd]

/-- A construction input whose invalid node sits one level below the root:
the root group (two valid items) is fine, but item 1's child group contains
a raw `li`. -/
def badNested : Desc :=
  Desc.group 0 none
    [ Desc.item 1 [Desc.raw "span", Desc.group 2 none [Desc.raw "li"]]
    , Desc.item 3 [] ]

/-- C10 counterexample: rendering `badNested` produces a tree — the root
group node with both items — in which only the inner group is replaced by
the error state.  Construction does not fail as a whole: a partial tree is
produced, with the structural error surfaced inline, not instead of the
tree. -/
theorem construction_validation_counterexample :
    renderDesc badNested
      = Rendered.groupNode 0 true true
          [ Rendered.itemNode 1
              [ Rendered.rawNode "span"
              , Rendered.errorState ["Invalid child type (li) at 1"] ]
          , Rendered.itemNode 3 [] ]
    ∧ (renderDesc badNested).isError = false := ⟨rfl, rfl⟩

/-- C10 (amended): structural validation is local to each group.  A group
whose direct children are all valid `TreeItem` nodes renders its group node
(with its children rendered beneath it); a group with any invalid direct
child renders the visible error state in its place and renders none of its
own children — so an invalid child of a top-level group yields the error
state instead of a tree, but an invalid node nested deeper leaves the
ancestor groups rendered, producing a partial tree with an inline error. -/
theorem group_validation_is_local (id : Nat) (hint : Option String)
    (children : List Desc) :
    (childErrors children = [] →
      renderDesc (Desc.group id hint children)
        = Rendered.groupNode id (mkTreeGroup hint children).expandable
            (mkTreeGroup hint children).expanded (renderDescList children))
    ∧ (∀ c, c ∈ children → isItemDesc c = false →
      renderDesc (Desc.group id hint children)
        = Rendered.errorState (childErrors children)
      ∧ childErrors children ≠ []) := by
  constructor
  · intro hz
    simp only [renderDesc, mkTreeGroup]
    rw [if_pos hz]
  · intro c hm hv
    have hne : childErrors children ≠ [] :=
      childErrorsAux_ne_nil 0 children c hm hv
    constructor
    · simp only [renderDesc, mkTreeGroup]
      rw [if_neg hne]
    · exact hne

/-- C10 witness: a top-level invalid child yields the error state (as the
repository's test asserts), and the valid root group of `badNested` renders
a group node. -/
theorem group_validation_is_local_witness :
    renderDesc (Desc.group 9 none [Desc.raw "li", Desc.raw "li"])
      = Rendered.errorState
          [ "Invalid child type (li) at 1", "Invalid child type (li) at 2" ]
    ∧ renderDesc badNested
      = Rendered.groupNode 0 true true
          (renderDescList
            [ Desc.item 1 [Desc.raw "span", Desc.group 2 none [Desc.raw "li"]]
            , Desc.item 3 [] ]) := by
  constructor
  · have h := ((group_validation_is_local 9 none
        [Desc.raw "li", Desc.raw "li"]).2 (Desc.raw "li") (by simp) rfl).1
    rw [h]
    rfl
  · have h := (group_validation_is_local 0 none
        [ Desc.item 1 [Desc.raw "span", Desc.group 2 none [Desc.raw "li"]]
        , Desc.item 3 [] ]).1 rfl
    rw [show badNested = Desc.group 0 none
        [ Desc.item 1 [Desc.raw "span", Desc.group 2 none [Desc.raw "li"]]
        , Desc.item 3 [] ] from rfl, h]
    rfl
